import Mathlib

/-!
# Verification of the `tablr` Markdown-table library

Shallow embedding of `src/table.go` (package `tablr`): the `Table` data
model, its mutation API, width calculation, and the Markdown renderer.
Go slices become Lean lists; Go `string` becomes `String` with `len`
modelled as UTF-8 byte length; methods that mutate the receiver and
return an `error` become pure functions `Table → … → Table × Option String`
returning the post-state together with the (optional) error; the
`io.Writer` sink is modelled by returning the rendered `String`.
The `sync.RWMutex` field is dropped: locking has no observable effect in
a sequential, pure embedding.
-/

namespace Tablr

/-- Go's `Alignment` is a `uint8`; values outside the four named constants
are representable, so we model it as `Nat` (all program values fit in
`0..255`; no arithmetic is ever performed on alignments). -/
abbrev Alignment := Nat

/-- `AlignDefault Alignment = iota` (= 0). -/
def AlignDefault : Alignment := 0

/-- `AlignLeft` (= 1). -/
def AlignLeft : Alignment := 1

/-- `AlignCenter` (= 2). -/
def AlignCenter : Alignment := 2

/-- `AlignRight` (= 3). -/
def AlignRight : Alignment := 3

/-- UTF-8 byte size of one character, as Go counts it. -/
def charUtf8Size (c : Char) : Nat :=
  if c.toNat < 0x80 then 1
  else if c.toNat < 0x800 then 2
  else if c.toNat < 0x10000 then 3
  else 4

/-- Go `len(s)` on a string: the number of UTF-8 bytes. -/
def golen (s : String) : Nat :=
  s.data.foldl (fun n c => n + charUtf8Size c) 0

/-- `escapePipes`: `strings.ReplaceAll(s, "|", "\\|")`.  The pattern is the
single character `|`, so the replacement acts independently on each
character of `s`. -/
def escapePipes (s : String) : String :=
  String.mk (s.data.foldr (fun c acc => if c = '|' then '\\' :: '|' :: acc else c :: acc) [])

/-- `strings.Repeat(" ", n)`. -/
def spaces (n : Nat) : String := String.mk (List.replicate n ' ')

/-- `strings.Repeat("-", n)`. -/
def dashes (n : Nat) : String := String.mk (List.replicate n '-')

/-- The `Table` struct (`writer` and `mu` omitted, see module docstring). -/
structure Table where
  columns : List String
  rows : List (List String)
  alignments : List Alignment
  columnMinWidths : List Nat
deriving Repr, DecidableEq

/-- `updateAlignments`: truncates the alignments slice to the number of
columns, or extends it with `AlignDefault` entries. -/
def updateAlignments (alignments : List Alignment) (ncols : Nat) : List Alignment :=
  if alignments.length = ncols then alignments
  else if alignments.length > ncols then alignments.take ncols
  else alignments ++ List.replicate (ncols - alignments.length) AlignDefault

/-- `New(writer, columns)` without options: escapes each header in place,
initialises `columnMinWidths[i]` to the length of the *original* header,
all alignments to `AlignDefault`, and finally calls `updateAlignments`. -/
def New (columns : List String) : Table :=
  let t : Table :=
    { columns := columns.map escapePipes
      alignments := List.replicate columns.length AlignDefault
      columnMinWidths := columns.map golen
      rows := [] }
  { t with alignments := updateAlignments t.alignments t.columns.length }

/-- `addRow` (also the body of `AddRow`): rejects a row whose length differs
from the number of columns; otherwise escapes each cell and appends. -/
def addRow (t : Table) (row : List String) : Table × Option String :=
  if row.length ≠ t.columns.length then
    (t, some "incorrect number of values in row")
  else
    ({ t with rows := t.rows ++ [row.map escapePipes] }, none)

/-- `AddRow` is `addRow` under the write lock. -/
def AddRow (t : Table) (row : List String) : Table × Option String :=
  addRow t row

/-- `AddRows`: applies `addRow` to each row in order, returning at the
first error (rows appended before the failure are kept). -/
def AddRows : Table → List (List String) → Table × Option String
  | t, [] => (t, none)
  | t, r :: rs =>
    match addRow t r with
    | (t1, none) => AddRows t1 rs
    | (t1, some e) => (t1, some e)

/-- `GetRow`. -/
def GetRow (t : Table) (index : Int) : Except String (List String) :=
  if index < 0 ∨ index ≥ (t.rows.length : Int) then
    .error "row index out of range"
  else
    .ok (t.rows.getD index.toNat [])

/-- `SetRow`: strict bounds and length checks, then escapes and stores. -/
def SetRow (t : Table) (index : Int) (row : List String) : Table × Option String :=
  if index < 0 ∨ index ≥ (t.rows.length : Int) then
    (t, some "row index out of range")
  else if row.length ≠ t.columns.length then
    (t, some "incorrect number of values in row")
  else
    ({ t with rows := t.rows.set index.toNat (row.map escapePipes) }, none)

/-- `DeleteRow`: bounds check, then remove the row at `index`
(the `copy`-and-truncate in the source removes exactly that element). -/
def DeleteRow (t : Table) (index : Int) : Table × Option String :=
  if index < 0 ∨ index ≥ (t.rows.length : Int) then
    (t, some "row index out of range")
  else
    ({ t with rows := t.rows.eraseIdx index.toNat }, none)

/-- `addColumn` (body of `AddColumn`): escapes the header, appends it, and
appends the escaped header's length and `AlignDefault` to the metadata
arrays.  Stored rows are not touched. -/
def addColumn (t : Table) (column : String) : Table × Option String :=
  let c := escapePipes column
  ({ t with columns := t.columns ++ [c]
            columnMinWidths := t.columnMinWidths ++ [golen c]
            alignments := t.alignments ++ [AlignDefault] }, none)

/-- `AddColumn` is `addColumn` under the write lock. -/
def AddColumn (t : Table) (column : String) : Table × Option String :=
  addColumn t column

/-- `AddColumns`: applies `addColumn` to each header in order, returning at
the first error (`addColumn` never errors). -/
def AddColumns : Table → List String → Table × Option String
  | t, [] => (t, none)
  | t, c :: cs =>
    match addColumn t c with
    | (t1, none) => AddColumns t1 cs
    | (t1, some e) => (t1, some e)

/-- `DeleteColumn`: bounds check against the column list, then removes the
entry at `index` from `columns`, `columnMinWidths` and `alignments`
(rows are not touched).  The source's `copy`-and-truncate assumes the
metadata arrays are at least as long as `columns`. -/
def DeleteColumn (t : Table) (index : Int) : Table × Option String :=
  if index < 0 ∨ index ≥ (t.columns.length : Int) then
    (t, some "column index out of range")
  else
    ({ t with columns := t.columns.eraseIdx index.toNat
              columnMinWidths := t.columnMinWidths.eraseIdx index.toNat
              alignments := t.alignments.eraseIdx index.toNat }, none)

/-- `SetColumns`: replaces the header list wholesale (no escaping), then
reconciles only the alignments via `updateAlignments`; `columnMinWidths`
and `rows` are left as they were. -/
def SetColumns (t : Table) (columns : List String) : Table × Option String :=
  let t1 := { t with columns := columns }
  ({ t1 with alignments := updateAlignments t1.alignments t1.columns.length }, none)

/-- `SetAlignment`: bounds check against the alignments slice, then stores
the value — the alignment value itself is not validated. -/
def SetAlignment (t : Table) (index : Int) (alignment : Alignment) :
    Table × Option String :=
  if index < 0 ∨ index ≥ (t.alignments.length : Int) then
    (t, some "alignment index out of range")
  else
    ({ t with alignments := t.alignments.set index.toNat alignment }, none)

/-- `SetAlignments`: replaces the alignments wholesale (no validation of
the values), then reconciles the length via `updateAlignments`; never
returns an error. -/
def SetAlignments (t : Table) (alignments : List Alignment) : Table × Option String :=
  let t1 := { t with alignments := alignments }
  ({ t1 with alignments := updateAlignments t1.alignments t1.columns.length }, none)

/-- `SetColumnMinWidth`: bounds check against `columns`, clamps a negative
width to 0, and stores it. -/
def SetColumnMinWidth (t : Table) (index width : Int) : Table × Option String :=
  if index < 0 ∨ index ≥ (t.columns.length : Int) then
    (t, some "column index out of range")
  else
    let w := if width < 0 then (0 : Int) else width
    ({ t with columnMinWidths := t.columnMinWidths.set index.toNat w.toNat }, none)

/-- `SetColumnMinWidths`: length must match the number of columns; clamps
negatives to 0 and writes positions `0..len(widths)-1` of the stored
array (entries beyond that, if any, survive). -/
def SetColumnMinWidths (t : Table) (widths : List Int) : Table × Option String :=
  if widths.length ≠ t.columns.length then
    (t, some "number of widths must match the number of columns")
  else
    ({ t with columnMinWidths :=
        (widths.map (fun w => (if w < 0 then (0 : Int) else w).toNat))
          ++ t.columnMinWidths.drop widths.length }, none)

/-- `columnMinWidth`: the stored minimum width, or 0 out of range. -/
def columnMinWidth (ws : List Nat) (index : Nat) : Nat :=
  if index < ws.length then ws.getD index 0 else 0

/-- One cell step of `calculateColumnWidths`: widen column `col` if the
cell is longer than the stored width.  (For a well-formed table
`col < ws.length` always holds; Go would panic on the write otherwise,
and `List.set` is a no-op there.) -/
def widenCell (ws : List Nat) (col : Nat) (cell : String) : List Nat :=
  if golen cell > columnMinWidth ws col then ws.set col (golen cell) else ws

/-- One row pass of `calculateColumnWidths`. -/
def widenRow (ws : List Nat) (row : List String) : List Nat :=
  row.enum.foldl (fun acc ic => widenCell acc ic.1 ic.2) ws

/-- Generalisation of `widenRow` to an enumeration starting at `k`
(`widenRow ws row = widenFrom ws 0 row`); used to reason about the
indexed fold by induction. -/
def widenFrom (ws : List Nat) (k : Nat) (cs : List String) : List Nat :=
  (cs.enumFrom k).foldl (fun acc ic => widenCell acc ic.1 ic.2) ws

/-- `calculateColumnWidths`: widens the stored minimum widths so every
cell of every row fits.  Header lengths are *not* consulted here. -/
def calculateColumnWidths (ws : List Nat) (rows : List (List String)) : List Nat :=
  rows.foldl widenRow ws

/-- Specification-side helper: the length of the longest cell in column `j`
over the given rows (0 when there are no rows). -/
def maxCellLen (rows : List (List String)) (j : Nat) : Nat :=
  rows.foldr (fun r m => Nat.max (golen (r.getD j "")) m) 0

/-- `GetColumnWidth`: bounds check, recalculation pass, then return the
(recalculated) stored width. -/
def GetColumnWidth (t : Table) (index : Int) : Except String Nat :=
  if index < 0 ∨ index ≥ (t.columnMinWidths.length : Int) then
    .error "column index out of range"
  else
    .ok ((calculateColumnWidths t.columnMinWidths t.rows).getD index.toNat 0)

/-- `GetColumnWidths`: recalculation pass, then the whole width array. -/
def GetColumnWidths (t : Table) : List Nat :=
  calculateColumnWidths t.columnMinWidths t.rows

/-- The sequential validation loop of `ReorderColumns`: walks `newOrder`
keeping the set of indices already `seen`, failing on the first
out-of-range or duplicate entry. -/
def checkOrder (n : Nat) : List Int → List Int → Option String
  | _, [] => none
  | seen, i :: rest =>
    if i < 0 ∨ i ≥ (n : Int) then some "invalid column index in new order"
    else if seen.contains i then some "duplicate column index in new order"
    else checkOrder n (i :: seen) rest

/-- Row body of the reorder loop: `newRow := make([]string, len(row))`
followed by `newRow[j] = row[newOrder[j]]` for `j` below
`len(newOrder)`; positions past `len(newOrder)` keep the zero value
`""`.  (For a row shorter than `newOrder`, Go would panic on the write;
unreachable from well-formed tables.) -/
def reorderRow (newOrder : List Int) (row : List String) : List String :=
  (List.range row.length).map fun j =>
    if j < newOrder.length then row.getD (newOrder.getD j 0).toNat "" else ""

/-- `ReorderColumns`: length check, sequential validation, then selects
`old[newOrder[i]]` into position `i` of the columns, alignments, width
arrays and every row. -/
def ReorderColumns (t : Table) (newOrder : List Int) : Table × Option String :=
  if newOrder.length ≠ t.columns.length then
    (t, some "new order length must match the number of columns")
  else
    match checkOrder t.columns.length [] newOrder with
    | some e => (t, some e)
    | none =>
      ({ t with
          columns := newOrder.map (fun j => t.columns.getD j.toNat "")
          alignments := newOrder.map (fun j => t.alignments.getD j.toNat 0)
          columnMinWidths := newOrder.map (fun j => t.columnMinWidths.getD j.toNat 0)
          rows := t.rows.map (reorderRow newOrder) }, none)

/-- `pad`: pads `s` to `width` with spaces according to `align`; a string
already at or over the target width — or an unrecognised alignment —
comes back unchanged.  The `if` chain mirrors the Go `switch`. -/
def pad (s : String) (width : Nat) (align : Alignment) : String :=
  if golen s ≥ width then s
  else
    let padding := width - golen s
    if align = AlignLeft ∨ align = AlignDefault then s ++ spaces padding
    else if align = AlignCenter then
      let left := padding / 2
      let right := padding - left
      spaces left ++ s ++ spaces right
    else if align = AlignRight then spaces padding ++ s
    else s

/-- One delimiter-row cell as printed by `Render`'s `switch`: a dash run of
the column's width bracketed by the alignment markers; an unrecognised
alignment prints nothing (the `switch` has no `default` case). -/
def delimCell (w : Nat) (a : Alignment) : String :=
  if a = AlignDefault then "-" ++ dashes w ++ "-"
  else if a = AlignLeft then ":" ++ dashes w ++ "-"
  else if a = AlignCenter then ":" ++ dashes w ++ ":"
  else if a = AlignRight then "-" ++ dashes w ++ ":"
  else ""

/-- One content line of `Render` (header or data row): for each cell,
`"| "` + padded cell + `" "`, then the closing `"|"` and newline. -/
def renderCells (cells : List String) (ws : List Nat) (aligns : List Alignment) : String :=
  String.join (cells.enum.map fun ic =>
    "| " ++ pad ic.2 (ws.getD ic.1 0) (aligns.getD ic.1 0) ++ " ") ++ "|\n"

/-- The delimiter line of `Render`: driven by the alignments slice. -/
def renderDelimRow (ws : List Nat) (aligns : List Alignment) : String :=
  String.join (aligns.enum.map fun ia => "|" ++ delimCell (ws.getD ia.1 0) ia.2) ++ "|\n"

/-- `Render` (the bytes written to the sink): recomputes the widths, then
emits the header line, the delimiter line, and one line per data row. -/
def renderTable (t : Table) : String :=
  let ws := calculateColumnWidths t.columnMinWidths t.rows
  renderCells t.columns ws t.alignments
    ++ renderDelimRow ws t.alignments
    ++ String.join (t.rows.map fun r => renderCells r ws t.alignments)

/-! ## Helper lemmas -/

lemma getD_append_len (l : List α) (x d : α) : (l ++ [x]).getD l.length d = x := by
  induction l with
  | nil => rfl
  | cons a l ih => simp [List.getD]

lemma updateAlignments_length (alignments : List Alignment) (ncols : Nat) :
    (updateAlignments alignments ncols).length = ncols := by
  unfold updateAlignments
  split
  · assumption
  · split
    · simp; omega
    · simp; omega

lemma addColumns_meta (cs : List String) : ∀ t : Table,
    (AddColumns t cs).2 = none
    ∧ (AddColumns t cs).1.rows = t.rows
    ∧ (AddColumns t cs).1.alignments.length = t.alignments.length + cs.length
    ∧ (AddColumns t cs).1.columns.length = t.columns.length + cs.length
    ∧ (AddColumns t cs).1.columnMinWidths.length = t.columnMinWidths.length + cs.length := by
  induction cs with
  | nil => intro t; simp [AddColumns]
  | cons c cs ih =>
    intro t
    have h := ih { t with
      columns := t.columns ++ [escapePipes c]
      columnMinWidths := t.columnMinWidths ++ [golen (escapePipes c)]
      alignments := t.alignments ++ [AlignDefault] }
    simp [AddColumns, addColumn] at h ⊢
    refine ⟨h.1, h.2.1, ?_, ?_, ?_⟩ <;> omega

lemma checkOrder_none_sound (n : Nat) :
    ∀ (l seen : List Int), checkOrder n seen l = none →
      (∀ x ∈ l, 0 ≤ x ∧ x < (n : Int)) ∧ l.Nodup ∧ (∀ x ∈ l, x ∉ seen) := by
  intro l
  induction l with
  | nil => intro seen _; simp
  | cons i rest ih =>
    intro seen hchk
    unfold checkOrder at hchk
    by_cases h1 : i < 0 ∨ i ≥ (n : Int)
    · simp [h1] at hchk
    · rw [if_neg h1] at hchk
      by_cases h2 : seen.contains i = true
      · rw [if_pos h2] at hchk
        exact absurd hchk (by simp)
      · rw [if_neg h2] at hchk
        obtain ⟨hrange, hnodup, hnotin⟩ := ih (i :: seen) hchk
        refine ⟨?_, ?_, ?_⟩
        · intro x hx
          rcases List.mem_cons.mp hx with rfl | hx
          · constructor <;> omega
          · exact hrange x hx
        · rw [List.nodup_cons]
          refine ⟨fun hmem => ?_, hnodup⟩
          have := hnotin i hmem
          simp at this
        · intro x hx
          rcases List.mem_cons.mp hx with rfl | hx
          · simpa using h2
          · have := hnotin x hx
            simp at this
            exact this.2

lemma checkOrder_complete (n : Nat) :
    ∀ (l seen : List Int),
      (∀ x ∈ l, 0 ≤ x ∧ x < (n : Int)) → l.Nodup → (∀ x ∈ l, x ∉ seen) →
      checkOrder n seen l = none := by
  intro l
  induction l with
  | nil => intro seen _ _ _; rfl
  | cons i rest ih =>
    intro seen hrange hnodup hseen
    unfold checkOrder
    have h1 : ¬ (i < 0 ∨ i ≥ (n : Int)) := by
      have := hrange i (by simp); omega
    rw [if_neg h1]
    have h2 : ¬ (seen.contains i = true) := by
      simpa using hseen i (by simp)
    rw [if_neg h2]
    obtain ⟨hhead, htail⟩ := List.nodup_cons.mp hnodup
    apply ih
    · intro x hx; exact hrange x (by simp [hx])
    · exact htail
    · intro x hx
      simp only [List.mem_cons, not_or]
      exact ⟨fun hxi => hhead (hxi ▸ hx), hseen x (by simp [hx])⟩

lemma map_range_getD (l : List β) (d : β) (f : β → α) :
    (List.range l.length).map (fun j => f (l.getD j d)) = l.map f := by
  induction l with
  | nil => rfl
  | cons a l ih =>
    rw [List.length_cons, List.range_succ_eq_map, List.map_cons, List.map_map]
    congr 1

lemma reorderRow_wf (newOrder : List Int) (r : List String)
    (hr : r.length = newOrder.length) :
    reorderRow newOrder r = newOrder.map (fun j => r.getD j.toNat "") := by
  unfold reorderRow
  have h1 : ∀ j ∈ List.range r.length,
      (if j < newOrder.length then r.getD ((newOrder.getD j 0)).toNat "" else "")
        = r.getD ((newOrder.getD j 0)).toNat "" := by
    intro j hj
    rw [List.mem_range] at hj
    rw [if_pos (by omega)]
  rw [List.map_congr_left h1, hr]
  exact map_range_getD newOrder 0 (fun x => r.getD x.toNat "")

/-! ## Claims -/

/-- C3: the end-to-end scenario — columns `["Name","Age","City"]`, data
alignments `[Left,Center,Right]`, rows `[["John Doe","30","New York"],
["Jane Smith","25","Los Angeles"]]` — renders to exactly the four expected
lines, each terminated by a single newline; and for any effective width `w`
the delimiter cell is `:` + `w` dashes + `-` for Left, `:`…`:` for Center,
`-`…`:` for Right, and all dashes with no colon for Default. -/
theorem c3_render_scenario :
    renderTable ((AddRows ((SetAlignments (New ["Name", "Age", "City"])
        [AlignLeft, AlignCenter, AlignRight]).1)
        [["John Doe", "30", "New York"], ["Jane Smith", "25", "Los Angeles"]]).1) =
      "| Name       | Age |        City |\n" ++
      "|:-----------|:---:|------------:|\n" ++
      "| John Doe   | 30  |    New York |\n" ++
      "| Jane Smith | 25  | Los Angeles |\n"
    ∧ (∀ w : Nat,
        delimCell w AlignLeft = ":" ++ dashes w ++ "-"
        ∧ delimCell w AlignCenter = ":" ++ dashes w ++ ":"
        ∧ delimCell w AlignRight = "-" ++ dashes w ++ ":"
        ∧ delimCell w AlignDefault = "-" ++ dashes w ++ "-") :=
  ⟨by decide, fun _ => ⟨rfl, rfl, rfl, rfl⟩⟩

/-- C1 (counterexample): the claimed invariant fails on the code.  After
`AddColumn` on a one-column table holding the row `["x"]`, the table has 2
columns but the stored row still has 1 cell; after `SetColumns` growing a
one-column table to 2 columns, the minimum-width array still has length 1. -/
theorem c1_counterexample :
    ((AddColumn (AddRow (New ["A"]) ["x"]).1 "B").1.columns.length = 2
      ∧ (AddColumn (AddRow (New ["A"]) ["x"]).1 "B").1.rows = [["x"]])
    ∧ ((SetColumns (New ["A"]) ["A", "B"]).1.columns.length = 2
      ∧ (SetColumns (New ["A"]) ["A", "B"]).1.columnMinWidths.length = 1) := by
  decide

/-- C1 (amended): `addColumn`, `AddColumns`, and a successful `DeleteColumn`
keep the alignment and minimum-width arrays the same length as the column
list, and `SetAlignments` reconciles the alignment array to the column
count — but `SetColumns` reconciles only the alignment array, leaving the
minimum-width array untouched, and no column operation adjusts the stored
rows, so rows keep their previous cell counts. -/
theorem c1_amended_metadata_sync (t : Table) (c : String) (cs cols : List String)
    (aligns : List Alignment) (i : Int)
    (h : t.alignments.length = t.columns.length
       ∧ t.columnMinWidths.length = t.columns.length) :
    ((addColumn t c).1.alignments.length = (addColumn t c).1.columns.length
      ∧ (addColumn t c).1.columnMinWidths.length = (addColumn t c).1.columns.length
      ∧ (addColumn t c).1.rows = t.rows)
    ∧ ((AddColumns t cs).1.alignments.length = (AddColumns t cs).1.columns.length
      ∧ (AddColumns t cs).1.columnMinWidths.length = (AddColumns t cs).1.columns.length
      ∧ (AddColumns t cs).1.rows = t.rows)
    ∧ ((DeleteColumn t i).2 = none →
        (DeleteColumn t i).1.alignments.length = (DeleteColumn t i).1.columns.length
        ∧ (DeleteColumn t i).1.columnMinWidths.length = (DeleteColumn t i).1.columns.length
        ∧ (DeleteColumn t i).1.rows = t.rows)
    ∧ ((SetAlignments t aligns).1.alignments.length
          = (SetAlignments t aligns).1.columns.length
      ∧ (SetAlignments t aligns).1.columnMinWidths.length
          = (SetAlignments t aligns).1.columns.length
      ∧ (SetAlignments t aligns).1.rows = t.rows)
    ∧ ((SetColumns t cols).1.alignments.length = cols.length
      ∧ (SetColumns t cols).1.columnMinWidths = t.columnMinWidths
      ∧ (SetColumns t cols).1.rows = t.rows) := by
  obtain ⟨h1, h2⟩ := h
  refine ⟨?_, ?_, ?_, ?_, ?_⟩
  · refine ⟨?_, ?_, rfl⟩ <;> simp [addColumn] <;> omega
  · have hm := addColumns_meta cs t
    exact ⟨by omega, by omega, hm.2.1⟩
  · intro hnone
    by_cases hcond : i < 0 ∨ i ≥ (t.columns.length : Int)
    · exact absurd hnone (by simp [DeleteColumn, hcond])
    · have htc : i.toNat < t.columns.length := by omega
      have hta : i.toNat < t.alignments.length := by omega
      have htw : i.toNat < t.columnMinWidths.length := by omega
      have ec := List.length_eraseIdx_add_one htc
      have ea := List.length_eraseIdx_add_one hta
      have ew := List.length_eraseIdx_add_one htw
      simp [DeleteColumn, hcond]
      refine ⟨?_, ?_⟩ <;> omega
  · refine ⟨?_, ?_, rfl⟩ <;> simp [SetAlignments, updateAlignments_length, h2]
  · exact ⟨by simp [SetColumns, updateAlignments_length], rfl, rfl⟩

/-- C1 (witness for the amended theorem): concrete instance — growing a
two-column table to one column via `SetColumns` leaves the alignment array
reconciled to length 1. -/
theorem c1_amended_witness :
    (SetColumns (New ["A", "B"]) ["X"]).1.alignments.length = 1 :=
  (c1_amended_metadata_sync (New ["A", "B"]) "" [] ["X"] [] 0 (by decide)).2.2.2.2.1

/-- C2 (counterexample): `AddRow` *does* error on a mismatched row length.
On a three-column table, adding the two-cell row `["Jane Doe","30"]`
returns an error and appends nothing — the row is neither padded nor
stored, contradicting the claimed pad/truncate policy. -/
theorem c2_counterexample :
    (AddRow (New ["Name", "Age", "City"]) ["Jane Doe", "30"]).2
        = some "incorrect number of values in row"
    ∧ (AddRow (New ["Name", "Age", "City"]) ["Jane Doe", "30"]).1.rows = [] := by
  decide

/-- C2 (amended): `AddRow` is strict — it returns an error exactly when the
input row's length differs from the current column count `N`, leaving the
table unchanged; when the length matches, it appends the pipe-escaped row
without error, and `GetRow` at the new index returns exactly those `N`
cells. -/
theorem c2_amended_addRow_strict (t : Table) (row : List String) :
    (row.length = t.columns.length →
      (AddRow t row).2 = none
      ∧ (AddRow t row).1.rows = t.rows ++ [row.map escapePipes]
      ∧ GetRow (AddRow t row).1 (t.rows.length : Int) = .ok (row.map escapePipes)
      ∧ (row.map escapePipes).length = t.columns.length)
    ∧ (row.length ≠ t.columns.length →
      (AddRow t row).2 = some "incorrect number of values in row"
      ∧ (AddRow t row).1 = t) := by
  constructor
  · intro hlen
    have hif : ¬ row.length ≠ t.columns.length := by omega
    refine ⟨by simp [AddRow, addRow, hif], by simp [AddRow, addRow, hif], ?_, ?_⟩
    · have hrows : (AddRow t row).1.rows = t.rows ++ [row.map escapePipes] := by
        simp [AddRow, addRow, hif]
      unfold GetRow
      rw [hrows]
      have hneg : ¬ ((t.rows.length : Int) < 0
          ∨ (t.rows.length : Int) ≥ ((t.rows ++ [row.map escapePipes]).length : Int)) := by
        simp
      rw [if_neg hneg]
      simp [getD_append_len]
    · simp [hlen]
  · intro hlen
    exact ⟨by simp [AddRow, addRow, hlen], by simp [AddRow, addRow, hlen]⟩

/-- C2 (witness for the amended theorem): on a one-column table, adding the
matching row `["x"]` succeeds. -/
theorem c2_amended_witness :
    (AddRow (New ["A"]) ["x"]).2 = none :=
  ((c2_amended_addRow_strict (New ["A"]) ["x"]).1 (by decide)).1

/-- C5: `ReorderColumns` rejects a new order of the wrong length, with an
out-of-range entry, or with a duplicate entry — returning an error and
leaving columns, rows, alignments, and minimum widths completely
unchanged (validation happens before any mutation). -/
theorem c5_reorder_rejection (t : Table) (newOrder : List Int)
    (h : newOrder.length ≠ t.columns.length
       ∨ (∃ x ∈ newOrder, x < 0 ∨ (t.columns.length : Int) ≤ x)
       ∨ ¬ newOrder.Nodup) :
    (ReorderColumns t newOrder).2 ≠ none ∧ (ReorderColumns t newOrder).1 = t := by
  unfold ReorderColumns
  by_cases hlen : newOrder.length ≠ t.columns.length
  · rw [if_pos hlen]
    exact ⟨by simp, rfl⟩
  · rw [if_neg hlen]
    cases hchk : checkOrder t.columns.length [] newOrder with
    | some e => exact ⟨by simp, rfl⟩
    | none =>
      exfalso
      have hs := checkOrder_none_sound t.columns.length newOrder [] hchk
      rcases h with h | h | h
      · exact hlen h
      · obtain ⟨x, hx, hlt⟩ := h
        have := hs.1 x hx
        rcases hlt with hlt | hlt <;> omega
      · exact h hs.2.1

/-- C5 (witness): the duplicate order `[0,0]` on a two-column table is
rejected and the table is unchanged. -/
theorem c5_witness :
    (ReorderColumns (New ["A", "B"]) [0, 0]).2 ≠ none
    ∧ (ReorderColumns (New ["A", "B"]) [0, 0]).1 = New ["A", "B"] :=
  c5_reorder_rejection (New ["A", "B"]) [0, 0] (Or.inr (Or.inr (by decide)))

/-- C6: for a valid new order (length `N`, entries in `[0,N)`, no
duplicates) `ReorderColumns` succeeds; afterwards position `i` of the
columns, alignments and minimum widths holds the former entry
`newOrder[i]`, and every well-formed row is permuted the same way
(`new_r[i] = old_r[newOrder[i]]`). -/
theorem c6_reorder_correct (t : Table) (newOrder : List Int)
    (hlen : newOrder.length = t.columns.length)
    (hrange : ∀ x ∈ newOrder, 0 ≤ x ∧ x < (t.columns.length : Int))
    (hnodup : newOrder.Nodup) :
    (ReorderColumns t newOrder).2 = none
    ∧ (ReorderColumns t newOrder).1.columns
        = newOrder.map (fun j => t.columns.getD j.toNat "")
    ∧ (ReorderColumns t newOrder).1.alignments
        = newOrder.map (fun j => t.alignments.getD j.toNat 0)
    ∧ (ReorderColumns t newOrder).1.columnMinWidths
        = newOrder.map (fun j => t.columnMinWidths.getD j.toNat 0)
    ∧ (ReorderColumns t newOrder).1.rows = t.rows.map (reorderRow newOrder)
    ∧ (∀ r ∈ t.rows, r.length = t.columns.length →
        reorderRow newOrder r = newOrder.map (fun j => r.getD j.toNat "")) := by
  have hchk : checkOrder t.columns.length [] newOrder = none :=
    checkOrder_complete _ newOrder [] hrange hnodup (by simp)
  have hlen' : ¬ newOrder.length ≠ t.columns.length := by omega
  unfold ReorderColumns
  rw [if_neg hlen', hchk]
  refine ⟨rfl, rfl, rfl, rfl, rfl, ?_⟩
  intro r _ hr
  exact reorderRow_wf newOrder r (by omega)

/-- C6 (witness): the spec's example — columns `[A,B,C]`, one row
`[a,b,c]`, order `[2,0,1]` — yields columns `[C,A,B]` and row `[c,a,b]`. -/
theorem c6_witness :
    (ReorderColumns (AddRow (New ["A", "B", "C"]) ["a", "b", "c"]).1 [2, 0, 1]).2 = none
    ∧ (ReorderColumns (AddRow (New ["A", "B", "C"]) ["a", "b", "c"]).1
        [2, 0, 1]).1.columns = ["C", "A", "B"]
    ∧ (ReorderColumns (AddRow (New ["A", "B", "C"]) ["a", "b", "c"]).1
        [2, 0, 1]).1.rows = [["c", "a", "b"]] := by
  have h := c6_reorder_correct (AddRow (New ["A", "B", "C"]) ["a", "b", "c"]).1
    [2, 0, 1] (by decide) (by decide) (by decide)
  exact ⟨h.1, h.2.1.trans (by decide), h.2.2.2.2.1.trans (by decide)⟩

/-- C7 (counterexample): `SetAlignment` does *not* validate the alignment
value.  Storing the out-of-range value `7` at index 0 succeeds with no
error and the stored alignments change to `[7]`. -/
theorem c7_counterexample :
    (SetAlignment (New ["Name"]) 0 7).2 = none
    ∧ (SetAlignment (New ["Name"]) 0 7).1.alignments = [7]
    ∧ (7 : Alignment) ≠ AlignDefault ∧ (7 : Alignment) ≠ AlignLeft
    ∧ (7 : Alignment) ≠ AlignCenter ∧ (7 : Alignment) ≠ AlignRight := by
  decide

/-- C7 (amended): `SetAlignment` validates only the index — out of range is
rejected with an index-out-of-range error, while any in-range store (of
*any* value, valid or not) succeeds; `SetAlignments` never errors, stores
the supplied values unvalidated, and reconciles only the array length. -/
theorem c7_amended_no_value_validation (t : Table) (i : Int) (a : Alignment)
    (aligns : List Alignment)
    (h : 0 ≤ i ∧ i < (t.alignments.length : Int)) :
    ((SetAlignment t i a).2 = none
      ∧ (SetAlignment t i a).1.alignments = t.alignments.set i.toNat a)
    ∧ (∀ j : Int, (j < 0 ∨ j ≥ (t.alignments.length : Int)) →
        SetAlignment t j a = (t, some "alignment index out of range"))
    ∧ ((SetAlignments t aligns).2 = none
      ∧ (SetAlignments t aligns).1.alignments
          = updateAlignments aligns t.columns.length) := by
  have hcond : ¬ (i < 0 ∨ i ≥ (t.alignments.length : Int)) := by omega
  refine ⟨⟨?_, ?_⟩, ?_, rfl, rfl⟩
  · simp [SetAlignment, hcond]
  · simp [SetAlignment, hcond]
  · intro j hj
    simp [SetAlignment, hj]

/-- C7 (witness for the amended theorem): storing `AlignRight` at the valid
index 0 of a one-column table succeeds and is observable. -/
theorem c7_amended_witness :
    (SetAlignment (New ["Name"]) 0 AlignRight).1.alignments = [AlignRight] := by
  have h := (c7_amended_no_value_validation (New ["Name"]) 0 AlignRight []
    (by decide)).1.2
  exact h.trans (by decide)

lemma addRows_spec (rows : List (List String)) : ∀ t : Table,
    (AddRows t rows).1.columns = t.columns
    ∧ (AddRows t rows).1.rows = t.rows ++
        ((rows.takeWhile (fun r => r.length == t.columns.length)).map
          (List.map escapePipes))
    ∧ ((AddRows t rows).2 ≠ none ↔ ∃ r ∈ rows, r.length ≠ t.columns.length) := by
  induction rows with
  | nil => intro t; simp [AddRows]
  | cons r rs ih =>
    intro t
    by_cases hlen : r.length = t.columns.length
    · have hif : ¬ r.length ≠ t.columns.length := by omega
      have hstep : addRow t r
          = ({ t with rows := t.rows ++ [r.map escapePipes] }, none) := by
        simp [addRow, hif]
      have h := ih { t with rows := t.rows ++ [r.map escapePipes] }
      simp only [AddRows, hstep]
      refine ⟨h.1, ?_, ?_⟩
      · rw [h.2.1]
        simp [List.takeWhile_cons, hlen]
      · rw [h.2.2]
        simp [hlen]
    · have hstep : addRow t r = (t, some "incorrect number of values in row") := by
        simp [addRow, hlen]
      simp only [AddRows, hstep]
      refine ⟨trivial, ?_, ?_⟩
      · simp [List.takeWhile_cons, hlen]
      · simp
        exact Or.inl hlen

/-- C8 (counterexample): a batch containing an invalid row does *not* leave
the row list as it was.  On a two-column table, `AddRows` with the batch
`[["a","b"],["c"]]` fails on the second row but keeps the first: the row
list afterwards is `[["a","b"]]`, not the original `[]`. -/
theorem c8_counterexample :
    (AddRows (New ["A", "B"]) [["a", "b"], ["c"]]).2
        = some "incorrect number of values in row"
    ∧ (AddRows (New ["A", "B"]) [["a", "b"], ["c"]]).1.rows = [["a", "b"]]
    ∧ (New ["A", "B"]).rows = [] := by
  decide

/-- C8 (amended): every *single-item* fallible mutation (`addRow`, `SetRow`,
`DeleteRow`, `DeleteColumn`, `SetColumnMinWidth`, `ReorderColumns`) leaves
the table unchanged when it returns an error; `AddRows`, however, stops at
the first invalid row and keeps the escaped valid prefix appended — it
errors exactly when some row of the batch has the wrong length. -/
theorem c8_amended_atomicity (t : Table) (rows : List (List String))
    (r : List String) (i w : Int) (o : List Int) :
    ((addRow t r).2 ≠ none → (addRow t r).1 = t)
    ∧ ((SetRow t i r).2 ≠ none → (SetRow t i r).1 = t)
    ∧ ((DeleteRow t i).2 ≠ none → (DeleteRow t i).1 = t)
    ∧ ((DeleteColumn t i).2 ≠ none → (DeleteColumn t i).1 = t)
    ∧ ((SetColumnMinWidth t i w).2 ≠ none → (SetColumnMinWidth t i w).1 = t)
    ∧ ((ReorderColumns t o).2 ≠ none → (ReorderColumns t o).1 = t)
    ∧ ((AddRows t rows).1.rows = t.rows ++
        ((rows.takeWhile (fun r => r.length == t.columns.length)).map
          (List.map escapePipes))
      ∧ ((AddRows t rows).2 ≠ none ↔ ∃ r ∈ rows, r.length ≠ t.columns.length)) := by
  refine ⟨?_, ?_, ?_, ?_, ?_, ?_, (addRows_spec rows t).2.1, (addRows_spec rows t).2.2⟩
  · intro hne
    by_cases hc : r.length ≠ t.columns.length
    · simp [addRow, hc]
    · exact absurd (by simp [addRow, hc]) hne
  · intro hne
    by_cases hc1 : i < 0 ∨ i ≥ (t.rows.length : Int)
    · simp [SetRow, hc1]
    · by_cases hc2 : r.length ≠ t.columns.length
      · simp [SetRow, hc1, hc2]
      · exact absurd (by simp [SetRow, hc1, hc2]) hne
  · intro hne
    by_cases hc : i < 0 ∨ i ≥ (t.rows.length : Int)
    · simp [DeleteRow, hc]
    · exact absurd (by simp [DeleteRow, hc]) hne
  · intro hne
    by_cases hc : i < 0 ∨ i ≥ (t.columns.length : Int)
    · simp [DeleteColumn, hc]
    · exact absurd (by simp [DeleteColumn, hc]) hne
  · intro hne
    by_cases hc : i < 0 ∨ i ≥ (t.columns.length : Int)
    · simp [SetColumnMinWidth, hc]
    · exact absurd (by simp [SetColumnMinWidth, hc]) hne
  · intro hne
    unfold ReorderColumns at hne ⊢
    by_cases hc : o.length ≠ t.columns.length
    · rw [if_pos hc]
    · rw [if_neg hc] at hne ⊢
      cases hchk : checkOrder t.columns.length [] o with
      | some e => rfl
      | none =>
        rw [hchk] at hne
        simp at hne

/-- C8 (witness for the amended theorem): `SetRow` at the out-of-range
index 5 of a fresh one-column table leaves the table unchanged. -/
theorem c8_amended_witness :
    (SetRow (New ["A"]) 5 ["x"]).1 = New ["A"] :=
  (c8_amended_atomicity (New ["A"]) [] ["x"] 5 0 []).2.1 (by decide)

lemma getD_set (l : List Nat) : ∀ (i j a : Nat),
    (l.set i a).getD j 0 = if i = j ∧ j < l.length then a else l.getD j 0 := by
  induction l with
  | nil => intro i j a; simp [List.getD]
  | cons b l ih =>
    intro i j a
    cases i with
    | zero =>
      cases j with
      | zero => simp [List.getD]
      | succ j => simp [List.getD]
    | succ i =>
      cases j with
      | zero => simp [List.getD]
      | succ j =>
        simp only [List.set, List.getD_cons_succ, List.length_cons]
        rw [ih i j a]
        by_cases hij : i = j
        · subst hij
          by_cases hj : i < l.length <;> simp [hj, Nat.succ_lt_succ_iff]
        · simp [hij, fun h => hij (Nat.succ_injective h)]

lemma columnMinWidth_eq (ws : List Nat) (k : Nat) :
    columnMinWidth ws k = ws.getD k 0 := by
  unfold columnMinWidth
  split
  · rfl
  · rw [List.getD_eq_default]
    omega

lemma widenCell_length (ws : List Nat) (c : Nat) (cell : String) :
    (widenCell ws c cell).length = ws.length := by
  unfold widenCell
  split <;> simp

lemma widenCell_getD (ws : List Nat) (c : Nat) (cell : String) (j : Nat) :
    (widenCell ws c cell).getD j 0
      = if c = j ∧ j < ws.length
        then Nat.max (ws.getD j 0) (golen cell)
        else ws.getD j 0 := by
  unfold widenCell
  rw [columnMinWidth_eq]
  by_cases hgt : golen cell > ws.getD c 0
  · rw [if_pos hgt, getD_set]
    by_cases hc : c = j ∧ j < ws.length
    · obtain ⟨rfl, hlt⟩ := hc
      rw [if_pos ⟨rfl, hlt⟩, if_pos ⟨rfl, hlt⟩]
      exact (Nat.max_eq_right (Nat.le_of_lt hgt)).symm
    · rw [if_neg hc, if_neg hc]
  · rw [if_neg hgt]
    by_cases hc : c = j ∧ j < ws.length
    · obtain ⟨rfl, hlt⟩ := hc
      rw [if_pos ⟨rfl, hlt⟩]
      exact (Nat.max_eq_left (Nat.le_of_not_lt hgt)).symm
    · rw [if_neg hc]

lemma widenFrom_cons (ws : List Nat) (k : Nat) (c : String) (cs : List String) :
    widenFrom ws k (c :: cs) = widenFrom (widenCell ws k c) (k + 1) cs := rfl

lemma widenFrom_length (cs : List String) : ∀ (k : Nat) (ws : List Nat),
    (widenFrom ws k cs).length = ws.length := by
  induction cs with
  | nil => intro k ws; rfl
  | cons c cs ih =>
    intro k ws
    rw [widenFrom_cons, ih, widenCell_length]

lemma widenFrom_getD (cs : List String) : ∀ (k : Nat) (ws : List Nat) (j : Nat),
    (widenFrom ws k cs).getD j 0
      = if k ≤ j ∧ j < k + cs.length ∧ j < ws.length
        then Nat.max (ws.getD j 0) (golen (cs.getD (j - k) ""))
        else ws.getD j 0 := by
  induction cs with
  | nil =>
    intro k ws j
    rw [if_neg (by simp; omega)]
    rfl
  | cons c cs ih =>
    intro k ws j
    rw [widenFrom_cons, ih, widenCell_length, widenCell_getD]
    simp only [List.length_cons]
    split_ifs <;> try omega
    all_goals try
      first
      | (have hjk : j - k = (j - (k + 1)) + 1 := by omega
         rw [hjk, List.getD_cons_succ])
      | (have hjk : j - k = 0 := by omega
         rw [hjk, List.getD_cons_zero])

lemma widenRow_eq (ws : List Nat) (row : List String) :
    widenRow ws row = widenFrom ws 0 row := rfl

lemma widenRow_length (ws : List Nat) (row : List String) :
    (widenRow ws row).length = ws.length := by
  rw [widenRow_eq, widenFrom_length]

lemma widenRow_getD (ws : List Nat) (row : List String) (j : Nat) :
    (widenRow ws row).getD j 0
      = if j < row.length ∧ j < ws.length
        then Nat.max (ws.getD j 0) (golen (row.getD j ""))
        else ws.getD j 0 := by
  rw [widenRow_eq, widenFrom_getD]
  by_cases h : j < row.length ∧ j < ws.length
  · rw [if_pos ⟨Nat.zero_le j, by omega, h.2⟩, if_pos h]
    simp
  · rw [if_neg (by omega), if_neg h]

lemma calcWidths_length (rows : List (List String)) : ∀ ws : List Nat,
    (calculateColumnWidths ws rows).length = ws.length := by
  induction rows with
  | nil => intro ws; rfl
  | cons r rs ih =>
    intro ws
    show (calculateColumnWidths (widenRow ws r) rs).length = ws.length
    rw [ih, widenRow_length]

lemma calcWidths_getD (rows : List (List String)) : ∀ (ws : List Nat) (j : Nat),
    (∀ r ∈ rows, r.length = ws.length) → j < ws.length →
    (calculateColumnWidths ws rows).getD j 0
      = Nat.max (ws.getD j 0) (maxCellLen rows j) := by
  induction rows with
  | nil =>
    intro ws j _ _
    simp [calculateColumnWidths, maxCellLen]
  | cons r rs ih =>
    intro ws j hwf hj
    have hr : r.length = ws.length := hwf r (by simp)
    show (calculateColumnWidths (widenRow ws r) rs).getD j 0 = _
    rw [ih (widenRow ws r) j
      (fun r' hr' => by rw [widenRow_length]; exact hwf r' (by simp [hr']))
      (by rw [widenRow_length]; exact hj)]
    rw [widenRow_getD, if_pos ⟨by omega, hj⟩]
    exact Nat.max_assoc (ws.getD j 0) (golen (r.getD j "")) (maxCellLen rs j)

/-- C4 (counterexample): the header length does *not* always participate in
the width.  On `New ["Name"]` (minimum width initialised to 4), lowering
the floor with `SetColumnMinWidth 0 0` makes `GetColumnWidth 0` return 0,
although the header `"Name"` still has length 4. -/
theorem c4_counterexample :
    GetColumnWidth ((SetColumnMinWidth (New ["Name"]) 0 0).1) 0 = .ok 0
    ∧ golen (((SetColumnMinWidth (New ["Name"]) 0 0).1).columns.getD 0 "") = 4 :=
  ⟨rfl, by decide⟩

/-- C4 (amended): for an in-range index on a table whose rows all match the
width-array length, `GetColumnWidth` (and the corresponding entry of
`GetColumnWidths`) runs the recalculation pass and returns
`max(current stored minWidth[i], max over rows of len(row[i]))` — the
header length enters only through the minimum width it seeded at
construction time, so a later smaller `SetColumnMinWidth` removes it. -/
theorem c4_amended_width_formula (t : Table) (i : Int)
    (hwf : ∀ r ∈ t.rows, r.length = t.columnMinWidths.length)
    (hi : 0 ≤ i ∧ i < (t.columnMinWidths.length : Int)) :
    GetColumnWidth t i
      = .ok (Nat.max (t.columnMinWidths.getD i.toNat 0) (maxCellLen t.rows i.toNat))
    ∧ (GetColumnWidths t).getD i.toNat 0
      = Nat.max (t.columnMinWidths.getD i.toNat 0) (maxCellLen t.rows i.toNat) := by
  have hcond : ¬ (i < 0 ∨ i ≥ (t.columnMinWidths.length : Int)) := by omega
  have hj : i.toNat < t.columnMinWidths.length := by omega
  have hc := calcWidths_getD t.rows t.columnMinWidths i.toNat hwf hj
  constructor
  · unfold GetColumnWidth
    rw [if_neg hcond, hc]
  · exact hc

/-- C4 (witness for the amended theorem): a two-column table with one row —
the width of column 0 is the cell length 3 (max of stored width 1 and
cell `"xyz"`). -/
theorem c4_amended_witness :
    GetColumnWidth ((AddRow (New ["A", "BB"]) ["xyz", "q"]).1) 0 = .ok 3 :=
  ((c4_amended_width_formula ((AddRow (New ["A", "BB"]) ["xyz", "q"]).1) 0
    (by decide) (by decide)).1).trans (congrArg Except.ok (by decide))

/-- C10: for a stored alignment that is none of the four defined constants,
the delimiter cell printed by `Render` is empty — two adjacent pipes with
no dashes or colons between them — and `pad` returns every cell unchanged,
so header and data cells are emitted unpadded; rendering is total (the
concrete conjunct shows a full render with the out-of-range alignment `9`
producing the delimiter line `||`). -/
theorem c10_unrecognized_alignment (w : Nat) (s : String) (a : Alignment)
    (h : a ≠ AlignDefault ∧ a ≠ AlignLeft ∧ a ≠ AlignCenter ∧ a ≠ AlignRight) :
    delimCell w a = ""
    ∧ pad s w a = s
    ∧ renderTable ((SetAlignment (New ["AB"]) 0 9).1) = "| AB |\n||\n" := by
  obtain ⟨h0, h1, h2, h3⟩ := h
  refine ⟨?_, ?_, by decide⟩
  · simp [delimCell, h0, h1, h2, h3]
  · unfold pad
    split
    · rfl
    · simp [h0, h1, h2, h3]

/-- C10 (witness): the out-of-range alignment value 7 yields an empty
delimiter cell at width 5 and leaves the short string `"x"` unpadded at
width 9. -/
theorem c10_witness : delimCell 5 7 = "" ∧ pad "x" 9 7 = "x" := by
  have h := c10_unrecognized_alignment 5 "x" 7 (by decide)
  exact ⟨h.1, h.2.1⟩

end Tablr
